import Mathlib

/-!
Shallow embedding of `src/kucher/model/device_model/communicator.py`
(the `Communicator` class of the Kucher project) and proofs about it.

The communicator sits between an application and a serial link: it sends
standard and application-specific messages, decodes received items,
matches responses against a set of pending requests, and runs an IO
worker thread with a bounded error tolerance.

Python values that carry no decidable structure in the original
(message classes, codec instances, exception objects) are modelled by
simple first-order data; functions that may raise are modelled with
`Except`, and Python functions that may return `None` instead of a
boolean are modelled with `Option Bool` together with the truthiness
coercion `truthy`.
-/

namespace Kucher

/-- Modelled from the spec: an application-specific message, whose schema is
defined by the active codec version (`kucher.model.device_model.messages.Message`,
not under `src/`).  Per the spec's data model, every message instance carries
an identifying type tag; the remaining content is abstracted to a number. -/
structure Message where
  type : Nat
  content : Nat
deriving DecidableEq, Repr

/-- A standard-protocol message instance (`popcop.standard.MessageBase`,
external library).  `cls` is the concrete Python class of the instance
(popcop's concrete standard message classes are flat, so `isinstance`
against a concrete class is class equality); the content is abstracted. -/
structure StandardMessage where
  cls : Nat
  content : Nat
deriving DecidableEq, Repr

/-- `AnyMessage = typing.Union[Message, StandardMessageBase]` (communicator.py:31). -/
inductive AnyMessage where
  | app (m : Message)
  | std (s : StandardMessage)
deriving DecidableEq, Repr

/-- A raw application-specific frame (`popcop.transport.ReceivedFrame`). -/
structure ReceivedFrame where
  frameTypeCode : Nat
  payload : List Nat
deriving DecidableEq, Repr

/-- Modelled from the spec: the version-selected codec
(`kucher.model.device_model.messages.Codec`, not under `src/`):
`encode` maps a typed application message to a (frame-type-code, payload)
pair; `decode` maps a raw frame back to a typed message, failing
distinguishably on malformed input. -/
structure Codec where
  encode : Message → Nat × List Nat
  decode : ReceivedFrame → Except String Message

/-- Python truthiness of a value that is either a `bool` or `None`:
`None` is falsy. -/
def truthy (o : Option Bool) : Bool :=
  o.getD false

/-- The `reference` argument of `Communicator._match_message`
(communicator.py:153-157): a `Message`, a `MessageType`, a
`StandardMessageBase` instance, or a standard message class. -/
inductive MatchReference where
  | appMessage (m : Message)
  | appType (t : Nat)
  | stdMessage (s : StandardMessage)
  | stdType (c : Nat)
deriving DecidableEq, Repr

/-- `Communicator._match_message` (communicator.py:153-168).
First the prototypes are eliminated: a `StandardMessageBase` instance is
replaced by its class, a `Message` by its type tag.  Then the type
dispatch: an application candidate against a `MessageType` reference
compares type tags; a standard candidate against a class reference uses
`isinstance`.  Any other combination falls off the end of the Python
function, which returns `None`. -/
def matchMessage (reference : MatchReference) (candidate : AnyMessage) : Option Bool :=
  let reference' : MatchReference :=
    match reference with
    | .stdMessage s => .stdType s.cls
    | .appMessage m => .appType m.type
    | r => r
  match candidate, reference' with
  | .app c, .appType t => some (c.type == t)
  | .std c, .stdType cl => some (c.cls == cl)
  | _, _ => none

/-- The `super_predicate` closure built inside `Communicator.request`
(communicator.py:201-207).  The caller-supplied refinement predicate may
raise (modelled by `Except`); `super_predicate` first applies the
identity gate `_match_message` (Python truthiness: `None` fails the
`if`), and only then evaluates the refinement predicate, swallowing any
exception it raises (the `except` branch logs and falls through,
returning `None`). -/
def superPredicate (ref : MatchReference) (pred : AnyMessage → Except String Bool)
    (item : AnyMessage) : Option Bool :=
  if truthy (matchMessage ref item) then
    match pred item with
    | .ok b => some b
    | .error _ => none
  else
    none

/-- One element of `Communicator._pending_requests` (communicator.py:60):
a `(predicate, future)` tuple.  Python removes a tuple from the set by
identity; following the spec's design note we carry an explicit
identifier instead of hashing closures.  The future is a
single-assignment slot: `none` while not done, `some m` once completed.
The only code that adds entries is `request` (communicator.py:212), so
every stored predicate is a `super_predicate`, which never raises; the
predicate is therefore total, returning the Python value `True`/`False`
or `None`. -/
structure PendingEntry where
  id : Nat
  pred : AnyMessage → Option Bool
  future : Option AnyMessage

/-- The per-entry condition of the matching loop (communicator.py:127):
`not future.done() and predicate(message)` under Python truthiness. -/
def matchEntry (msg : AnyMessage) (e : PendingEntry) : Bool :=
  e.future.isNone && truthy (e.pred msg)

/-- The effect of one loop iteration on one entry: a matching entry has
its future completed with the message (`future.set_result(message)`,
communicator.py:130); any other entry is left untouched. -/
def completeIf (msg : AnyMessage) (e : PendingEntry) : PendingEntry :=
  if matchEntry msg e then { e with future := some msg } else e

/-- The matching loop of `Communicator._process_received_item`
(communicator.py:125-130), iterating over the pending-request set:
returns the updated entries and the `at_least_one_match` flag. -/
def dispatchLoop (msg : AnyMessage) : List PendingEntry → List PendingEntry × Bool
  | [] => ([], false)
  | e :: rest =>
    let hit := e.future.isNone && truthy (e.pred msg)
    let tail := dispatchLoop msg rest
    ((if hit then { e with future := some msg } else e) :: tail.1, hit || tail.2)

/-- The Dispatch Core state owned by the consumer context: the
pending-request set and the inbound message queue
(communicator.py:58-60). -/
structure DispatchState where
  pending : List PendingEntry
  messageQueue : List AnyMessage

/-- The tail of `Communicator._process_received_item`
(communicator.py:125-133) once a concrete message has been produced:
run the matching loop; if no entry matched, append the message to the
inbound message queue (`self._message_queue.put_nowait(message)`). -/
def processMessage (msg : AnyMessage) (st : DispatchState) : DispatchState :=
  let r := dispatchLoop msg st.pending
  { pending := r.1
    messageQueue := if r.2 then st.messageQueue else st.messageQueue ++ [msg] }

/-- The `item` argument of `_process_received_item`: a standard message,
a raw application frame, or (dynamically untyped Python) anything else. -/
inductive ReceivedItem where
  | std (s : StandardMessage)
  | frame (f : ReceivedFrame)
  | unexpected
deriving DecidableEq, Repr

/-- How one call to `_process_received_item` ends. -/
inductive ProcessOutcome where
  | droppedNoCodec
  | droppedDecodeFailure
  | dispatched
  | raisedTypeError
deriving DecidableEq, Repr

/-- `Communicator._process_received_item` (communicator.py:108-133).
A standard message is dispatched as is.  A raw frame with no codec
bound is dropped with a warning; a frame whose decode raises is dropped
with a warning; otherwise the decoded message is dispatched.  An item
of any other type hits `raise TypeError(...)` (communicator.py:123). -/
def processReceivedItem (codec : Option Codec) (item : ReceivedItem) (st : DispatchState) :
    ProcessOutcome × DispatchState :=
  match item with
  | .std s => (.dispatched, processMessage (.std s) st)
  | .frame f =>
    match codec with
    | none => (.droppedNoCodec, st)
    | some c =>
      match c.decode f with
      | .error _ => (.droppedDecodeFailure, st)
      | .ok m => (.dispatched, processMessage (.app m) st)
  | .unexpected => (.raisedTypeError, st)

/-- The `message_or_type` argument of `Communicator._do_send`
(communicator.py:135): an application message, a standard message
instance, a standard message class, or anything else. -/
inductive SendArg where
  | appMessage (m : Message)
  | stdMessage (s : StandardMessage)
  | stdType (c : Nat)
  | invalid
deriving DecidableEq, Repr

/-- A call performed on the transport channel by the send path. -/
inductive TransportOp where
  | sendAppSpecific (frameTypeCode : Nat) (payload : List Nat)
  | sendStandardMsg (s : StandardMessage)
  | sendStandardType (c : Nat)
deriving DecidableEq, Repr

/-- An exception propagated out of `_do_send`. -/
inductive SendError where
  | communicatorException
  | typeError
deriving DecidableEq, Repr

/-- `Communicator._do_send` (communicator.py:135-151), returning the
transport calls it performed and the exception it raised, if any.
An application message with no codec bound raises
`CommunicatorException` before any transport call; with a codec bound
it is encoded and sent via `send_application_specific`; a standard
message or class is sent via `send_standard`.  The
`raise TypeError(...)` on communicator.py:151 is NOT guarded by an
`else:`, so it executes unconditionally after the `if`/`elif` chain:
every call that reaches the end of the chain raises, even after a
successful transport send. -/
def doSend (codec : Option Codec) (arg : SendArg) : List TransportOp × Option SendError :=
  match arg with
  | .appMessage m =>
    match codec with
    | none => ([], some .communicatorException)
    | some c =>
      let r := c.encode m
      ([.sendAppSpecific r.1 r.2], some .typeError)
  | .stdMessage s => ([.sendStandardMsg s], some .typeError)
  | .stdType cl => ([.sendStandardType cl], some .typeError)
  | .invalid => ([], some .typeError)

/-- How the `await asyncio.wait_for(future, timeout, ...)` on
communicator.py:213 resolves: the future completed with a message
before the timeout; the wait timed out (`asyncio.TimeoutError`); or
some other exception propagated. -/
inductive AwaitOutcome where
  | completed (m : AnyMessage)
  | timedOut
  | raised
deriving Repr

/-- The observable result of the `try`/`except`/`finally` block of
`request`: the value returned to the caller (`.error ()` when an
exception other than `TimeoutError` propagated), and the
pending-request set after the block. -/
structure RequestBlockResult where
  result : Except Unit (Option AnyMessage)
  pendingAfter : List PendingEntry

/-- The `try`/`except TimeoutError`/`finally` block of
`Communicator.request` (communicator.py:209-217): the entry is added to
the pending set, the future is awaited, a `TimeoutError` is converted
to the return value `None`, and the `finally` clause removes the entry
from the pending set on every path out of the block. -/
def requestTryFinally (entry : PendingEntry) (outcome : AwaitOutcome)
    (pending : List PendingEntry) : RequestBlockResult :=
  let pending1 := pending ++ [entry]
  let res : Except Unit (Option AnyMessage) :=
    match outcome with
    | .completed m => .ok (some m)
    | .timedOut => .ok none
    | .raised => .error ()
  { result := res
    pendingAfter := pending1.eraseP (fun e => e.id == entry.id) }

/-- What one call to `self._ch.receive(0.1)` in the IO worker produces
(communicator.py:79-100): raw diagnostic bytes, a received item, `None`
(nothing arrived within the poll timeout), a
`ChannelClosedException`, or any other exception. -/
inductive ReceiveOutcome where
  | bytes (raw : List Nat)
  | item (it : ReceivedItem)
  | idle
  | channelClosed
  | otherError
deriving DecidableEq, Repr

/-- One iteration's worth of environment input to the IO worker loop:
either the `while self._ch.is_open` check observes a closed channel, or
the channel yields a receive outcome. -/
inductive LoopEvent where
  | notOpen
  | recv (r : ReceiveOutcome)
deriving DecidableEq, Repr

/-- A callback the IO worker schedules onto the event loop via
`call_soon_threadsafe` (communicator.py:84, 88). -/
inductive WorkerAction where
  | scheduleLog (raw : List Nat)
  | scheduleItem (it : ReceivedItem)
deriving DecidableEq, Repr

/-- Why the IO worker loop stopped. -/
inductive StopCause where
  | channelNotOpen
  | closedSignal
  | errorLimit
deriving DecidableEq, Repr

/-- `Communicator.IO_WORKER_ERROR_LIMIT` (communicator.py:46). -/
def IO_WORKER_ERROR_LIMIT : Nat := 100

/-- The `while` loop of `Communicator._thread_entry`
(communicator.py:75-103), run over a finite trace of environment
events, starting from the given error counter.  Returns the scheduled
actions, the stop cause (`none` when the trace ran out with the loop
still going), and the final error counter.  A successful iteration
(bytes, an item, or an idle poll) runs the `else:` clause and resets
the counter to zero; a `ChannelClosedException` breaks out; any other
exception increments the counter and breaks out exactly when the
counter exceeds `IO_WORKER_ERROR_LIMIT`. -/
def ioWorkerLoop : List LoopEvent → Nat → List WorkerAction × Option StopCause × Nat
  | [], c => ([], none, c)
  | .notOpen :: _, c => ([], some .channelNotOpen, c)
  | .recv r :: rest, c =>
    match r with
    | .bytes raw =>
      let t := ioWorkerLoop rest 0
      (.scheduleLog raw :: t.1, t.2.1, t.2.2)
    | .item it =>
      let t := ioWorkerLoop rest 0
      (.scheduleItem it :: t.1, t.2.1, t.2.2)
    | .idle => ioWorkerLoop rest 0
    | .channelClosed => ([], some .closedSignal, c)
    | .otherError =>
      if c + 1 > IO_WORKER_ERROR_LIMIT then ([], some .errorLimit, c + 1)
      else ioWorkerLoop rest (c + 1)

/-- The observable outcome of running `_thread_entry` over a trace. -/
structure WorkerRun where
  actions : List WorkerAction
  stopCause : Option StopCause
  transportClosed : Bool

/-- `Communicator._thread_entry` (communicator.py:71-106): run the loop
with the error counter starting at zero; whenever the loop has exited
— for any cause — the trailing `self._ch.close()` on
communicator.py:106 runs, so the transport is closed.  If the trace ran
out with the loop still going, the close has not happened yet. -/
def threadEntry (events : List LoopEvent) : WorkerRun :=
  let r := ioWorkerLoop events 0
  { actions := r.1
    stopCause := r.2.1
    transportClosed := r.2.1.isSome }

/-! Concrete sample values used by witness theorems. -/

/-- A sample inbound standard message: class 1, content 5. -/
def sampleMsg : AnyMessage := .std ⟨1, 5⟩

/-- A refinement predicate (as stored, post-`super_predicate`) that
accepts every message. -/
def predAcceptAll : AnyMessage → Option Bool := fun _ => some true

/-- A caller-supplied refinement predicate that accepts everything. -/
def refineOk : AnyMessage → Except String Bool := fun _ => .ok true

/-- A caller-supplied refinement predicate that raises on every message. -/
def refineRaise : AnyMessage → Except String Bool := fun _ => .error "boom"

/-- Sample pending entry 0, not yet completed, matching everything. -/
def sampleEntryA : PendingEntry := ⟨0, predAcceptAll, none⟩

/-- Sample pending entry 1, not yet completed, matching everything. -/
def sampleEntryB : PendingEntry := ⟨1, predAcceptAll, none⟩

/-- Sample pending entry 2, not yet completed, matching everything. -/
def sampleEntryC : PendingEntry := ⟨2, predAcceptAll, none⟩

/-- A dispatch state with two pending entries and an empty queue. -/
def sampleState : DispatchState := ⟨[sampleEntryA, sampleEntryB], []⟩

/-- A dispatch state with no pending entries and an empty queue. -/
def emptyState : DispatchState := ⟨[], []⟩

/-- A sample codec whose decode always fails. -/
def sampleBadCodec : Codec :=
  { encode := fun m => (m.type, [m.content])
    decode := fun _ => .error "malformed" }

/-! Helper lemmas shared by the claim theorems. -/

/-- The matching loop completes exactly the entries satisfying
`matchEntry` and reports whether any entry did. -/
theorem dispatchLoop_eq (msg : AnyMessage) (l : List PendingEntry) :
    dispatchLoop msg l = (l.map (completeIf msg), l.any (matchEntry msg)) := by
  induction l with
  | nil => rfl
  | cons e rest ih =>
    simp only [dispatchLoop, ih, List.map_cons, List.any_cons, completeIf, matchEntry]

/-- The pending list after `processMessage` is the pointwise
`completeIf` image of the pending list before. -/
theorem processMessage_pending (msg : AnyMessage) (st : DispatchState) :
    (processMessage msg st).pending = st.pending.map (completeIf msg) := by
  simp only [processMessage, dispatchLoop_eq]

/-- The queue after `processMessage`: unchanged when some entry
matched, the message appended when none did. -/
theorem processMessage_queue (msg : AnyMessage) (st : DispatchState) :
    (processMessage msg st).messageQueue =
      (if st.pending.any (matchEntry msg) then st.messageQueue
       else st.messageQueue ++ [msg]) := by
  simp only [processMessage, dispatchLoop_eq]

/-- `completeIf` never changes an entry's identifier. -/
theorem completeIf_id (msg : AnyMessage) (e : PendingEntry) :
    (completeIf msg e).id = e.id := by
  unfold completeIf
  split <;> rfl

/-- `processMessage` preserves the multiset of entry identifiers: the
dispatch pass never adds or removes pending entries. -/
theorem processMessage_ids (msg : AnyMessage) (st : DispatchState) :
    (processMessage msg st).pending.map PendingEntry.id =
      st.pending.map PendingEntry.id := by
  rw [processMessage_pending, List.map_map]
  refine List.map_congr_left ?_
  intro e _
  exact completeIf_id msg e

/-- An already-completed entry passes through `completeIf` untouched. -/
theorem completeIf_of_done (msg : AnyMessage) (e : PendingEntry)
    (h : e.future.isSome = true) : completeIf msg e = e := by
  unfold completeIf matchEntry
  have : e.future.isNone = false := by
    cases hf : e.future with
    | none => rw [hf] at h; simp at h
    | some v => simp [hf]
  simp [this]

/-- Helper: for every outcome of the awaited future, the `finally`
clause removes the freshly added entry, restoring the pending set that
was there before the call (the entry's identifier is fresh). -/
theorem requestTryFinally_pendingAfter (entry : PendingEntry) (outcome : AwaitOutcome)
    (pending : List PendingEntry) (h : ∀ e ∈ pending, e.id ≠ entry.id) :
    (requestTryFinally entry outcome pending).pendingAfter = pending := by
  have hl : ∀ e ∈ pending, ¬((fun x : PendingEntry => x.id == entry.id) e = true) := by
    intro e he
    simpa using h e he
  show List.eraseP (fun e => e.id == entry.id) (pending ++ [entry]) = pending
  rw [List.eraseP_append_right _ hl]
  rw [List.eraseP_cons_of_pos]
  · simp
  · simp

/-! Claim theorems. -/

/-- Claim C1 (evidence of the code bug): `_do_send` performs the
transport send and then still raises `TypeError`.  The `raise` on
communicator.py:151 is not guarded by an `else:`, so a standard message
is forwarded to `send_standard` and the call then raises; an
application message with a codec bound is forwarded to
`send_application_specific` and the call then raises.  The claim (and
the method's own docstring) says the call returns without raising. -/
theorem c1_send_performs_io_then_raises :
    doSend none (SendArg.stdMessage ⟨7, 0⟩) =
      ([TransportOp.sendStandardMsg ⟨7, 0⟩], some SendError.typeError) ∧
    doSend (some sampleBadCodec) (SendArg.appMessage ⟨3, 9⟩) =
      ([TransportOp.sendAppSpecific 3 [9]], some SendError.typeError) :=
  ⟨rfl, rfl⟩

/-- Claim C8: sending an application-specific message with no codec
bound raises `CommunicatorException` and performs no transport call at
all. -/
theorem c8_app_send_without_codec (m : Message) :
    doSend none (SendArg.appMessage m) = ([], some SendError.communicatorException) :=
  rfl

/-- Witness for C8 at a concrete application message. -/
theorem c8_no_codec_witness :
    doSend none (SendArg.appMessage ⟨3, 9⟩) = ([], some SendError.communicatorException) :=
  c8_app_send_without_codec ⟨3, 9⟩

/-- Claim C10: every reference/candidate combination not covered by
`_match_message`'s type dispatch — an application-type or
application-message reference against a standard candidate, or a
standard-class or standard-message reference against an application
candidate — silently yields `None`; `None` is falsy, so the composite
predicate treats the combination as a non-match.  The function is
total, so no such combination raises. -/
theorem c10_unrecognized_combination_non_match :
    (∀ (t : Nat) (s : StandardMessage),
      matchMessage (MatchReference.appType t) (AnyMessage.std s) = none) ∧
    (∀ (m : Message) (s : StandardMessage),
      matchMessage (MatchReference.appMessage m) (AnyMessage.std s) = none) ∧
    (∀ (cl : Nat) (m : Message),
      matchMessage (MatchReference.stdType cl) (AnyMessage.app m) = none) ∧
    (∀ (s : StandardMessage) (m : Message),
      matchMessage (MatchReference.stdMessage s) (AnyMessage.app m) = none) ∧
    (∀ (ref : MatchReference) (cand : AnyMessage), matchMessage ref cand = none →
      truthy (matchMessage ref cand) = false ∧
      ∀ pred : AnyMessage → Except String Bool, superPredicate ref pred cand = none) := by
  refine ⟨fun t s => rfl, fun m s => rfl, fun cl m => rfl, fun s m => rfl, ?_⟩
  intro ref cand h
  constructor
  · rw [h]; rfl
  · intro pred
    unfold superPredicate
    rw [h]
    rfl

/-- Witness for C10 at a concrete uncovered combination: an
application-type reference against a standard candidate is a
non-match for the composite predicate. -/
theorem c10_witness :
    truthy (matchMessage (MatchReference.appType 4) sampleMsg) = false ∧
    superPredicate (MatchReference.appType 4) refineOk sampleMsg = none := by
  have h := c10_unrecognized_combination_non_match.2.2.2.2
    (MatchReference.appType 4) sampleMsg rfl
  exact ⟨h.1, h.2 refineOk⟩

/-- Claim C6: the composite predicate applies the identity gate first
and non-overridably.  If the gate fails, the result is `None` whatever
refinement predicate was supplied (the refinement is never consulted);
if the gate passes, the result is exactly the refinement predicate's
outcome; and a candidate accepted by the composite predicate always
passed the gate. -/
theorem c6_identity_gate_first (ref : MatchReference)
    (pred : AnyMessage → Except String Bool) (item : AnyMessage) :
    (truthy (matchMessage ref item) = false →
      ∀ pred2 : AnyMessage → Except String Bool, superPredicate ref pred2 item = none) ∧
    (truthy (matchMessage ref item) = true →
      superPredicate ref pred item =
        (match pred item with
         | .ok b => some b
         | .error _ => none)) ∧
    (truthy (superPredicate ref pred item) = true → truthy (matchMessage ref item) = true) := by
  refine ⟨?_, ?_, ?_⟩
  · intro h pred2
    unfold superPredicate
    rw [h]
    rfl
  · intro h
    unfold superPredicate
    rw [h]
    rfl
  · intro h
    by_contra hb
    have hf : truthy (matchMessage ref item) = false := by
      cases hx : truthy (matchMessage ref item)
      · rfl
      · exact absurd hx hb
    unfold superPredicate at h
    rw [hf] at h
    simp [truthy] at h

/-- Witness for C6: with a standard-class reference matching the
candidate's class, the composite predicate returns the refinement's
verdict; with a mismatching class it returns `None` without consulting
the refinement. -/
theorem c6_witness :
    superPredicate (MatchReference.stdType 1) refineOk sampleMsg = some true ∧
    superPredicate (MatchReference.stdType 9) refineOk sampleMsg = none := by
  constructor
  · have h := (c6_identity_gate_first (MatchReference.stdType 1) refineOk sampleMsg).2.1
      (by decide)
    exact h.trans rfl
  · exact (c6_identity_gate_first (MatchReference.stdType 9) refineOk sampleMsg).1
      (by decide) refineOk

/-- Claim C2: the dispatch pass over a received message completes every
pending entry whose slot is not yet done and whose predicate accepts
the message (broadcast-style: the pending list after the pass is the
pointwise `completeIf` image, so several entries may be completed by
the same message), leaves non-matching entries untouched, and enqueues
the message exactly when zero entries matched. -/
theorem c2_dispatch_broadcast (msg : AnyMessage) (st : DispatchState) :
    (processMessage msg st).pending = st.pending.map (completeIf msg) ∧
    (∀ e ∈ st.pending, matchEntry msg e = true →
      (⟨e.id, e.pred, some msg⟩ : PendingEntry) ∈ (processMessage msg st).pending) ∧
    (∀ e ∈ st.pending, matchEntry msg e = false → e ∈ (processMessage msg st).pending) ∧
    (st.pending.any (matchEntry msg) = true →
      (processMessage msg st).messageQueue = st.messageQueue) ∧
    (st.pending.any (matchEntry msg) = false →
      (processMessage msg st).messageQueue = st.messageQueue ++ [msg]) := by
  refine ⟨processMessage_pending msg st, ?_, ?_, ?_, ?_⟩
  · intro e he hm
    rw [processMessage_pending]
    have : completeIf msg e = ⟨e.id, e.pred, some msg⟩ := by
      unfold completeIf
      rw [hm]
      rfl
    exact this ▸ List.mem_map_of_mem (completeIf msg) he
  · intro e he hm
    rw [processMessage_pending]
    have : completeIf msg e = e := by
      unfold completeIf
      rw [hm]
      rfl
    exact this ▸ List.mem_map_of_mem (completeIf msg) he
  · intro h
    rw [processMessage_queue, if_pos h]
  · intro h
    rw [processMessage_queue, h]
    rfl

/-- Witness for C2: a message matching both sample entries completes
the first of them and is not enqueued. -/
theorem c2_broadcast_witness :
    (⟨sampleEntryA.id, sampleEntryA.pred, some sampleMsg⟩ : PendingEntry) ∈
      (processMessage sampleMsg sampleState).pending ∧
    (processMessage sampleMsg sampleState).messageQueue = sampleState.messageQueue := by
  have h := c2_dispatch_broadcast sampleMsg sampleState
  refine ⟨h.2.1 sampleEntryA ?_ ?_, h.2.2.2.1 ?_⟩
  · exact List.mem_cons_self _ _
  · decide
  · decide

/-- Claim C3: the `try`/`finally` of `request` removes the registered
entry exactly once whatever the outcome — match, timeout, or
exception — so the pending set is restored exactly and the entry is
gone; and the dispatch pass never assigns a result to an
already-completed slot, so at most one successful assignment is ever
made to an entry's future. -/
theorem c3_entry_removed_exactly_once (entry : PendingEntry) (outcome : AwaitOutcome)
    (pending : List PendingEntry) (h : ∀ e ∈ pending, e.id ≠ entry.id) :
    (requestTryFinally entry outcome pending).pendingAfter = pending ∧
    (∀ e ∈ (requestTryFinally entry outcome pending).pendingAfter, e.id ≠ entry.id) ∧
    (∀ (msg : AnyMessage) (e : PendingEntry), e.future.isSome = true →
      completeIf msg e = e) := by
  refine ⟨requestTryFinally_pendingAfter entry outcome pending h, ?_, ?_⟩
  · rw [requestTryFinally_pendingAfter entry outcome pending h]
    exact h
  · intro msg e he
    exact completeIf_of_done msg e he

/-- Witness for C3: registering a fresh entry and timing out leaves the
pending set exactly as it was. -/
theorem c3_removed_once_witness :
    (requestTryFinally sampleEntryC AwaitOutcome.timedOut [sampleEntryA]).pendingAfter =
      [sampleEntryA] := by
  exact (c3_entry_removed_exactly_once sampleEntryC AwaitOutcome.timedOut [sampleEntryA]
    (by decide)).1

/-- Claim C5: a request whose future times out returns the explicit
"no response" value `None` (an ordinary return, not a propagated
exception), its entry is gone from the pending set when the call
returns, and a matching message arriving afterwards finds no entry
with that identifier in the dispatch pass, so it cannot complete or
resurrect the request. -/
theorem c5_timeout_no_response (entry : PendingEntry) (pending : List PendingEntry)
    (h : ∀ e ∈ pending, e.id ≠ entry.id) :
    (requestTryFinally entry AwaitOutcome.timedOut pending).result = Except.ok none ∧
    (requestTryFinally entry AwaitOutcome.timedOut pending).result ≠ Except.error () ∧
    (∀ e ∈ (requestTryFinally entry AwaitOutcome.timedOut pending).pendingAfter,
      e.id ≠ entry.id) ∧
    (∀ (msg : AnyMessage) (q : List AnyMessage),
      ∀ e ∈ (processMessage msg
        ⟨(requestTryFinally entry AwaitOutcome.timedOut pending).pendingAfter, q⟩).pending,
      e.id ≠ entry.id) := by
  have hp := requestTryFinally_pendingAfter entry AwaitOutcome.timedOut pending h
  refine ⟨rfl, by simp [requestTryFinally], ?_, ?_⟩
  · rw [hp]
    exact h
  · intro msg q e he
    rw [hp] at he
    have hid : e.id ∈ (processMessage msg ⟨pending, q⟩).pending.map PendingEntry.id :=
      List.mem_map_of_mem PendingEntry.id he
    rw [processMessage_ids] at hid
    obtain ⟨e2, he2, heq⟩ := List.mem_map.mp hid
    exact heq ▸ h e2 he2

/-- Witness for C5: a concrete timed-out request returns `None`, and a
message matching everything, arriving after the removal, completes no
entry with the timed-out request's identifier. -/
theorem c5_timeout_witness :
    (requestTryFinally sampleEntryC AwaitOutcome.timedOut [sampleEntryA]).result =
      Except.ok none ∧
    (∀ e ∈ (processMessage sampleMsg
      ⟨(requestTryFinally sampleEntryC AwaitOutcome.timedOut [sampleEntryA]).pendingAfter,
        []⟩).pending, e.id ≠ sampleEntryC.id) := by
  have h := c5_timeout_no_response sampleEntryC [sampleEntryA] (by decide)
  exact ⟨h.1, h.2.2.2 sampleMsg []⟩

/-- Claim C9: a caller-supplied refinement predicate that raises is
swallowed by the composite predicate (which returns `None`, a
non-match), the entry carrying it is left uncompleted by the dispatch
pass, and every other pending entry is evaluated against the same
message exactly as it would have been without the raising entry — the
queue decision included. -/
theorem c9_predicate_exception_contained (ref : MatchReference)
    (pred : AnyMessage → Except String Bool) (item : AnyMessage) (err : String)
    (i : Nat) (l1 l2 : List PendingEntry) (q : List AnyMessage)
    (h : pred item = Except.error err) :
    superPredicate ref pred item = none ∧
    (processMessage item ⟨l1 ++ ⟨i, superPredicate ref pred, none⟩ :: l2, q⟩).pending =
      l1.map (completeIf item) ++
        (⟨i, superPredicate ref pred, none⟩ : PendingEntry) :: l2.map (completeIf item) ∧
    (l1 ++ (⟨i, superPredicate ref pred, none⟩ : PendingEntry) :: l2).any (matchEntry item) =
      (l1 ++ l2).any (matchEntry item) := by
  have hs : superPredicate ref pred item = none := by
    unfold superPredicate
    rw [h]
    split <;> rfl
  have hm : matchEntry item (⟨i, superPredicate ref pred, none⟩ : PendingEntry) = false := by
    unfold matchEntry
    show (true && truthy (superPredicate ref pred item)) = false
    rw [hs]
    rfl
  refine ⟨hs, ?_, ?_⟩
  · rw [processMessage_pending]
    simp only [List.map_append, List.map_cons]
    have : completeIf item (⟨i, superPredicate ref pred, none⟩ : PendingEntry) =
        (⟨i, superPredicate ref pred, none⟩ : PendingEntry) := by
      unfold completeIf
      rw [hm]
      rfl
    rw [this]
  · simp only [List.any_append, List.any_cons, hm]
    rfl

/-- Witness for C9: with a raising refinement predicate in the pending
set alongside an accept-all entry, the composite predicate yields
`None` and the matching pass over the remaining entries is unchanged. -/
theorem c9_exception_witness :
    superPredicate (MatchReference.stdType 1) refineRaise sampleMsg = none ∧
    ([sampleEntryA] ++
      (⟨7, superPredicate (MatchReference.stdType 1) refineRaise, none⟩ : PendingEntry) ::
        []).any (matchEntry sampleMsg) =
      ([sampleEntryA] ++ []).any (matchEntry sampleMsg) := by
  have h := c9_predicate_exception_contained (MatchReference.stdType 1) refineRaise
    sampleMsg "boom" 7 [sampleEntryA] [] [] rfl
  exact ⟨h.1, h.2.2⟩

/-- Counterexample for claim C4 as stated: an item of an unexpected
type is NOT logged and dropped — `_process_received_item` raises a
`TypeError` (communicator.py:123), a distinct outcome from either drop,
and the exception propagates out of the item-processing entry point. -/
theorem c4_unexpected_item_raises :
    (processReceivedItem none ReceivedItem.unexpected emptyState).1 =
      ProcessOutcome.raisedTypeError ∧
    ProcessOutcome.raisedTypeError ≠ ProcessOutcome.droppedNoCodec ∧
    ProcessOutcome.raisedTypeError ≠ ProcessOutcome.droppedDecodeFailure := by
  refine ⟨rfl, ?_, ?_⟩ <;> decide

/-- Claim C4 as amended: a frame arriving with no codec bound and a
frame whose decode fails are logged and dropped — the dispatch state is
untouched, no exception propagates, and no transport operation is
performed (the function has no transport effect at all); an exception
raised by the caller-supplied refinement predicate is contained inside
the composite predicate.  An item of an unexpected type, however,
raises a `TypeError` out of the entry point. -/
theorem c4_transient_errors_contained (st : DispatchState) (f : ReceivedFrame)
    (c : Codec) (err : String) (ref : MatchReference)
    (pred : AnyMessage → Except String Bool) (item : AnyMessage) (e : String) :
    processReceivedItem none (ReceivedItem.frame f) st = (ProcessOutcome.droppedNoCodec, st) ∧
    (c.decode f = Except.error err →
      processReceivedItem (some c) (ReceivedItem.frame f) st =
        (ProcessOutcome.droppedDecodeFailure, st)) ∧
    (pred item = Except.error e → superPredicate ref pred item = none) := by
  refine ⟨rfl, ?_, ?_⟩
  · intro h
    show (match c.decode f with
          | Except.error _ => (ProcessOutcome.droppedDecodeFailure, st)
          | Except.ok m => (ProcessOutcome.dispatched, processMessage (AnyMessage.app m) st)) =
        (ProcessOutcome.droppedDecodeFailure, st)
    rw [h]
  · intro h
    unfold superPredicate
    rw [h]
    split <;> rfl

/-- Witness for C4 (amended): a concrete undecodable frame is dropped
with the state untouched, and a concrete raising refinement predicate
is swallowed. -/
theorem c4_contained_witness :
    processReceivedItem (some sampleBadCodec) (ReceivedItem.frame ⟨0, []⟩) emptyState =
      (ProcessOutcome.droppedDecodeFailure, emptyState) ∧
    superPredicate (MatchReference.stdType 1) refineRaise sampleMsg = none := by
  have h := c4_transient_errors_contained emptyState ⟨0, []⟩ sampleBadCodec "malformed"
    (MatchReference.stdType 1) refineRaise sampleMsg "boom"
  exact ⟨h.2.1 rfl, h.2.2 rfl⟩

/-- Helper: the stop cause reported by `_thread_entry` is the stop
cause of the loop. -/
theorem threadEntry_stopCause (events : List LoopEvent) :
    (threadEntry events).stopCause = (ioWorkerLoop events 0).2.1 :=
  rfl

/-- Helper: the transport is closed after `_thread_entry` exactly when
the loop has stopped. -/
theorem threadEntry_closed (events : List LoopEvent) :
    (threadEntry events).transportClosed = (ioWorkerLoop events 0).2.1.isSome :=
  rfl

/-- Claim C7: in the IO worker loop, an exception other than the
channel-closed signal increments the error counter and the loop
continues while the counter stays within the limit of 100; the loop
stops with the error-limit cause as soon as the incremented counter
exceeds 100; every successful iteration (bytes, an item, or an idle
poll) resets the counter to zero; and every termination of the loop —
channel-closed signal, error limit, or the open check failing — ends
with the transport closed. -/
theorem c7_io_worker_error_policy (events rest : List LoopEvent) (c : Nat)
    (raw : List Nat) (it : ReceivedItem) (cause : StopCause) :
    (c + 1 ≤ IO_WORKER_ERROR_LIMIT →
      ioWorkerLoop (LoopEvent.recv ReceiveOutcome.otherError :: rest) c =
        ioWorkerLoop rest (c + 1)) ∧
    (c + 1 > IO_WORKER_ERROR_LIMIT →
      ioWorkerLoop (LoopEvent.recv ReceiveOutcome.otherError :: rest) c =
        ([], some StopCause.errorLimit, c + 1)) ∧
    (ioWorkerLoop (LoopEvent.recv (ReceiveOutcome.bytes raw) :: rest) c =
      (WorkerAction.scheduleLog raw :: (ioWorkerLoop rest 0).1,
        (ioWorkerLoop rest 0).2.1, (ioWorkerLoop rest 0).2.2)) ∧
    (ioWorkerLoop (LoopEvent.recv (ReceiveOutcome.item it) :: rest) c =
      (WorkerAction.scheduleItem it :: (ioWorkerLoop rest 0).1,
        (ioWorkerLoop rest 0).2.1, (ioWorkerLoop rest 0).2.2)) ∧
    (ioWorkerLoop (LoopEvent.recv ReceiveOutcome.idle :: rest) c = ioWorkerLoop rest 0) ∧
    ((threadEntry events).stopCause = some cause →
      (threadEntry events).transportClosed = true) := by
  refine ⟨?_, ?_, rfl, rfl, rfl, ?_⟩
  · intro h
    show (if c + 1 > IO_WORKER_ERROR_LIMIT then
        ([], some StopCause.errorLimit, c + 1) else ioWorkerLoop rest (c + 1)) =
      ioWorkerLoop rest (c + 1)
    rw [if_neg (by omega)]
  · intro h
    show (if c + 1 > IO_WORKER_ERROR_LIMIT then
        ([], some StopCause.errorLimit, c + 1) else ioWorkerLoop rest (c + 1)) =
      ([], some StopCause.errorLimit, c + 1)
    rw [if_pos h]
  · intro h
    rw [threadEntry_closed]
    rw [threadEntry_stopCause] at h
    rw [h]
    rfl

/-- Witness for C7: with the counter at 100, one more error stops the
loop with the error-limit cause and counter 101; a channel-closed
signal terminates the worker with the transport closed. -/
theorem c7_error_policy_witness :
    ioWorkerLoop [LoopEvent.recv ReceiveOutcome.otherError] 100 =
      ([], some StopCause.errorLimit, 101) ∧
    (threadEntry [LoopEvent.recv ReceiveOutcome.channelClosed]).transportClosed = true := by
  have h := c7_io_worker_error_policy [LoopEvent.recv ReceiveOutcome.channelClosed] [] 100
    [] ReceivedItem.unexpected StopCause.closedSignal
  exact ⟨h.2.1 (by decide), h.2.2.2.2.2 (by decide)⟩

end Kucher
